import Mathlib

/-!
Shallow embedding of the memory-overlapped T5 inference core
(`bminf/arch/t5/model.py`) and the CPM2 task drivers (`bminf/models/cpm2.py`).

Tensors and GPU kernels are external primitives per the specification, so
tensor values are represented by their shapes; the embedding keeps the exact
control flow, arithmetic, allocator sizing, loader/compute event traces and
error behaviour of the Python source.
-/

set_option maxRecDepth 4000

namespace BMInf

/-- Error kinds named by the specification.  The Python source raises
`ValueError` with a message for each of these; the constructor names follow
the specification's error vocabulary.  `DECODE_OVERFLOW` is declared because
the specification names it; `attributeMissing` models Python's
`AttributeError` when an inference context lacking the decoder fields is fed
to `decode_step`. -/
inductive SpecError where
  | INSUFFICIENT_MEMORY
  | ENCODER_ONLY
  | DECODE_OVERFLOW
  | NO_SPANS
  | TOO_MANY_SPANS
  | INVALID_SPAN (pos : Nat)
  | attributeMissing
deriving DecidableEq, Repr

/-- Decidable equality on `Except`, needed to evaluate concrete runs. -/
def exceptDecEq {ε α : Type} [DecidableEq ε] [DecidableEq α] :
    DecidableEq (Except ε α)
  | .error e, .error f =>
    if h : e = f then isTrue (by rw [h])
    else isFalse (by intro hh; cases hh; exact h rfl)
  | .error _, .ok _ => isFalse (by intro hh; cases hh)
  | .ok _, .error _ => isFalse (by intro hh; cases hh)
  | .ok a, .ok b =>
    if h : a = b then isTrue (by rw [h])
    else isFalse (by intro hh; cases hh; exact h rfl)

instance {ε α : Type} [DecidableEq ε] [DecidableEq α] :
    DecidableEq (Except ε α) := exceptDecEq

/-- Configuration record of `T5.__init__` (`T5Configuration` fields read by
`model.py`).  Layer counts are carried by `T5Shape` below, as the lengths of
the per-layer byte-size lists. -/
structure T5Config where
  dimModel : Nat
  numHeads : Nat
  dimKv : Nat
  vocabSize : Nat
  maxDecoderLength : Nat
  encoderOnly : Bool
  memoryOverlap : Bool
  overlapLayers : Nat
  memoryLimit : Nat
  dynamicMemory : Nat
deriving DecidableEq, Repr

/-- Byte footprint of the model: one entry per encoder layer
(`self.encoder[i].nbytes`), one per decoder layer, and `otherBytes` for all
remaining sub-layers, so that `self.nbytes = otherBytes + encSizes.sum +
decSizes.sum` and `other_size = self.nbytes - self.encoder.nbytes -
self.decoder.nbytes = otherBytes` (model.py line 101). -/
structure T5Shape where
  encSizes : List Nat
  decSizes : List Nat
  otherBytes : Nat
deriving DecidableEq, Repr

/-- `self.max_overlap_layers = max(NUM_ENCODER_LAYERS, NUM_DECODER_LAYERS)`
(model.py line 29). -/
def maxOverlapLayers (sh : T5Shape) : Nat :=
  max sh.encSizes.length sh.decSizes.length

/-- `mx_size`: running maximum of per-layer byte sizes over all encoder and
decoder layers, starting from 0 (model.py lines 86-90). -/
def maxLayerSize (sh : T5Shape) : Nat :=
  (sh.encSizes ++ sh.decSizes).foldl Nat.max 0

/-- `self.nbytes`: total parameter bytes of the model. -/
def nbytes (sh : T5Shape) : Nat :=
  sh.otherBytes + sh.encSizes.sum + sh.decSizes.sum

/-- `self.overlap_layers` (model.py lines 30-33): with overlap the configured
window is clamped to `max_overlap_layers`, without overlap every layer is in
the (single) window. -/
def effOverlapLayers (memoryOverlap : Bool) (cfgOverlapLayers M : Nat) : Nat :=
  if memoryOverlap then min cfgOverlapLayers M else M

/-- `overlap_size` cascade of `T5.__init__` (model.py lines 92-99), written
exactly as the source computes it (`W` is the already clamped
`self.overlap_layers`, `M` is `max_overlap_layers`, `mx` is `mx_size`). -/
def overlapSize (mx W M : Nat) : Nat :=
  if M ≤ W then mx * M * 2
  else if M ≤ W * 2 then mx * W * 2 + (M - W) * mx
  else if M ≤ W * 3 then mx * W * 3 + (M - W * 2) * mx
  else mx * W * 4

/-- Combined capacity of the two overlap ring pools created at model.py lines
108-115 (`none` capacity counts as 0). -/
def ringBytes (mx W M : Nat) : Nat :=
  if M ≤ W then 0
  else if M ≤ W * 2 then (M - W) * mx
  else if M ≤ W * 3 then (M - W * 2) * mx + W * mx
  else W * mx + W * mx

/-- Result of the construction-time memory planning in `T5.__init__`:
capacities of the parameter allocator, the two optional overlap ring pools
(`self.overlap_allocator`), the activation allocator
(`self.variable_allocator`), and how many encoder/decoder layers are moved
permanently to the device (model.py lines 119-125 / 134). -/
structure MemoryPlan where
  parameterAllocSize : Nat
  overlapA : Option Nat
  overlapB : Option Nat
  variableAllocSize : Nat
  residentEncoderLayers : Nat
  residentDecoderLayers : Nat
deriving DecidableEq, Repr

/-- Memory planning of `T5.__init__` (model.py lines 28-33 and 84-134):
computes the overlap window, checks the memory limit and sizes every
device-memory pool.  `ValueError("memory limit not enough ...")` is the
specification's `INSUFFICIENT_MEMORY`. -/
def buildPlan (cfg : T5Config) (sh : T5Shape) : Except SpecError MemoryPlan :=
  let M := maxOverlapLayers sh
  let W := effOverlapLayers cfg.memoryOverlap cfg.overlapLayers M
  if cfg.memoryOverlap then
    let mx := maxLayerSize sh
    let osize := overlapSize mx W M
    if cfg.memoryLimit < osize + sh.otherBytes + cfg.dynamicMemory then
      .error .INSUFFICIENT_MEMORY
    else
      .ok {
        parameterAllocSize := sh.otherBytes + mx * W * 2
        overlapA :=
          if M ≤ W then none
          else if M ≤ W * 2 then none
          else if M ≤ W * 3 then some ((M - W * 2) * mx)
          else some (W * mx)
        overlapB :=
          if M ≤ W then none
          else if M ≤ W * 2 then some ((M - W) * mx)
          else if M ≤ W * 3 then some (W * mx)
          else some (W * mx)
        variableAllocSize := cfg.memoryLimit - sh.otherBytes - osize
        residentEncoderLayers := min W sh.encSizes.length
        residentDecoderLayers := min W sh.decSizes.length }
  else
    if cfg.memoryLimit < nbytes sh + cfg.dynamicMemory then
      .error .INSUFFICIENT_MEMORY
    else
      .ok {
        parameterAllocSize := nbytes sh
        overlapA := none
        overlapB := none
        variableAllocSize := cfg.memoryLimit - nbytes sh
        residentEncoderLayers := sh.encSizes.length
        residentDecoderLayers := sh.decSizes.length }

/-- Events issued by the loader thread and by the compute loops; resets and
uploads correspond to `olp_allocator.reset()` and `layer.to_device(...)` in
`encode_loader` / `decode_loader`. -/
inductive LoaderEvent where
  | barrierWait
  | reset (poolIdx : Nat)
  | uploadEncoder (layer : Nat)
  | uploadDecoder (layer : Nat)
deriving DecidableEq, Repr

/-- `self.overlap_allocator_status`: two slots, `None` initially, holding a
signed tag (positive for encoder windows, negative for decoder windows). -/
abbrev OverlapStatus := Option Int × Option Int

def statusGet (s : OverlapStatus) (idx : Nat) : Option Int :=
  if idx = 0 then s.1 else s.2

def statusSet (s : OverlapStatus) (idx : Nat) (v : Int) : OverlapStatus :=
  if idx = 0 then (some v, s.2) else (s.1, some v)

/-- Body of `encode_loader` (model.py lines 165-183) from loop index `i`
upward: at each window boundary the loader synchronizes and waits on the
barrier, then, if a further window exists, either skips (status tag hit) or
resets one ring pool and schedules the next window's uploads. -/
def encodeLoaderAux (numEncoder W : Nat) (i : Nat) (status : OverlapStatus) :
    List LoaderEvent × OverlapStatus :=
  if _h : i < numEncoder then
    let step : List LoaderEvent × OverlapStatus :=
      if i % W = 0 then
        if i + W < numEncoder then
          let overlapIdx := ((i + W) / W) % 2
          if statusGet status overlapIdx = some ((i : Int) + 1) then
            ([LoaderEvent.barrierWait], status)
          else
            ([LoaderEvent.barrierWait, LoaderEvent.reset overlapIdx] ++
                (List.range' (i + W) (min (i + W * 2) numEncoder - (i + W))).map
                  LoaderEvent.uploadEncoder,
              statusSet status overlapIdx ((i : Int) + 1))
        else ([LoaderEvent.barrierWait], status)
      else ([], status)
    let rest := encodeLoaderAux numEncoder W (i + 1) step.2
    (step.1 ++ rest.1, rest.2)
  else ([], status)
termination_by numEncoder - i

/-- `encode_loader` run from the start of its loop. -/
def encodeLoader (numEncoder W : Nat) (status : OverlapStatus) :
    List LoaderEvent × OverlapStatus :=
  encodeLoaderAux numEncoder W 0 status

/-- Body of `decode_loader` (model.py lines 185-203): identical to
`encode_loader` except that the status tag is `-(i + 1)` and decoder layers
are uploaded. -/
def decodeLoaderAux (numDecoder W : Nat) (i : Nat) (status : OverlapStatus) :
    List LoaderEvent × OverlapStatus :=
  if _h : i < numDecoder then
    let step : List LoaderEvent × OverlapStatus :=
      if i % W = 0 then
        if i + W < numDecoder then
          let overlapIdx := ((i + W) / W) % 2
          if statusGet status overlapIdx = some (-((i : Int) + 1)) then
            ([LoaderEvent.barrierWait], status)
          else
            ([LoaderEvent.barrierWait, LoaderEvent.reset overlapIdx] ++
                (List.range' (i + W) (min (i + W * 2) numDecoder - (i + W))).map
                  LoaderEvent.uploadDecoder,
              statusSet status overlapIdx (-((i : Int) + 1)))
        else ([LoaderEvent.barrierWait], status)
      else ([], status)
    let rest := decodeLoaderAux numDecoder W (i + 1) step.2
    (step.1 ++ rest.1, rest.2)
  else ([], status)
termination_by numDecoder - i

/-- `decode_loader` run from the start of its loop. -/
def decodeLoader (numDecoder W : Nat) (status : OverlapStatus) :
    List LoaderEvent × OverlapStatus :=
  decodeLoaderAux numDecoder W 0 status

/-- Events on the calc stream. -/
inductive CalcEvent where
  | barrierSync
  | calcEncoderLayer (i : Nat)
  | calcDecoderLayer (i : Nat)
deriving DecidableEq, Repr

/-- Calc-side event trace of `encode` (model.py lines 224-239): a barrier
rendezvous before each window boundary, then the layer computation. -/
def encodeCalc (numEncoder W : Nat) : List CalcEvent :=
  ((List.range numEncoder).map fun i =>
    (if i % W = 0 then [CalcEvent.barrierSync] else []) ++
      [CalcEvent.calcEncoderLayer i]).flatten

/-- Calc-side event trace of `decode_step` (model.py lines 300-318). -/
def decodeCalc (numDecoder W : Nat) : List CalcEvent :=
  ((List.range numDecoder).map fun i =>
    (if i % W = 0 then [CalcEvent.barrierSync] else []) ++
      [CalcEvent.calcDecoderLayer i]).flatten

/-- `T5InferenceContext`: created by `encode` with only `hidden_states`
(represented by its shape `(batch, dim_model, seq_len)`) and `input_length`;
the decoder fields are attributes that `_init_decoder_context` assigns later,
hence `Option`-valued (value = tensor shape). -/
structure T5InferenceContext where
  hiddenStates : Nat × Nat × Nat
  inputLength : List Nat
  encoderLayersKv : Option (List Nat) := none
  decoderPositionBias : Option (List Nat) := none
  pastKv : Option (List Nat) := none
  encoderMask : Option (List Nat) := none
  stepPos : Option Nat := none
deriving DecidableEq, Repr

/-- `encode` (model.py lines 206-244): returns the fresh inference context
holding the `(batch, dim_model, seq_len)` hidden states and the calc trace of
the encoder pass. -/
def encode (cfg : T5Config) (sh : T5Shape) (batch seqLen : Nat)
    (inputLength : List Nat) : T5InferenceContext × List CalcEvent :=
  ({ hiddenStates := (batch, cfg.dimModel, seqLen), inputLength := inputLength },
    encodeCalc sh.encSizes.length
      (effOverlapLayers cfg.memoryOverlap cfg.overlapLayers (maxOverlapLayers sh)))

/-- `_init_decoder_context` (model.py lines 246-276): on an encoder-only model
it raises `ValueError("T5-encoder only")` (= `ENCODER_ONLY`) as its very first
statement, before any context field is assigned — the returned context is the
input context unchanged.  Otherwise it assigns the five decoder fields with
the shapes documented in the source and sets `step_pos = 0`. -/
def initDecoderContext (cfg : T5Config) (sh : T5Shape) (ctx : T5InferenceContext) :
    Except SpecError Unit × T5InferenceContext :=
  if cfg.encoderOnly then (.error .ENCODER_ONLY, ctx)
  else
    let (batch, _, seqIpt) := ctx.hiddenStates
    (.ok (), { ctx with
      encoderLayersKv := some [batch, sh.decSizes.length, 2, cfg.numHeads, cfg.dimKv, seqIpt]
      decoderPositionBias := some [1, cfg.numHeads, cfg.maxDecoderLength, cfg.maxDecoderLength]
      pastKv := some [sh.decSizes.length, 2, batch, cfg.numHeads, cfg.dimKv, cfg.maxDecoderLength]
      encoderMask := some [batch, seqIpt]
      stepPos := some 0 })

/-- `decode_step` (model.py lines 278-324): reads the decoder fields of the
context (an uninitialized context would raise `AttributeError` in Python,
modelled by `attributeMissing`), increments `ctx.step_pos`, runs the decoder
layer loop and returns the `(batch, vocab)` logits shape together with the
calc trace.  Note the source performs no comparison of `step_pos` with
`max_decoder_length`. -/
def decodeStep (cfg : T5Config) (sh : T5Shape) (ctx : T5InferenceContext) :
    Except SpecError (T5InferenceContext × List Nat × List CalcEvent) :=
  match ctx.pastKv, ctx.encoderLayersKv, ctx.decoderPositionBias,
      ctx.encoderMask, ctx.stepPos with
  | some _, some _, some _, some _, some sp =>
      .ok ({ ctx with stepPos := some (sp + 1) },
        [ctx.hiddenStates.1, cfg.vocabSize],
        decodeCalc sh.decSizes.length
          (effOverlapLayers cfg.memoryOverlap cfg.overlapLayers (maxOverlapLayers sh)))
  | _, _, _, _, _ => .error .attributeMissing

/-- Hardcoded estimate, in bytes, of the non-encoder/decoder parameter bytes
of the CPM2.1 model used by the auto-window heuristic (cpm2.py line 47). -/
def cpm2OtherBytesEst : Int := 1235640320

/-- Hardcoded per-layer byte estimate of the CPM2.1 model used by the
auto-window heuristic (cpm2.py line 47). -/
def cpm2LayerBytesEst : Int := 226615296

/-- `max_layers` of the auto-window policy (cpm2.py line 47); Python `//` is
floor division, `Int.fdiv`. -/
def autoMaxLayers (memoryLimit dynamicMemory : Int) : Int :=
  Int.fdiv (memoryLimit - dynamicMemory - cpm2OtherBytesEst) cpm2LayerBytesEst

/-- The window chosen by the auto policy before the `< 1` check
(cpm2.py lines 50-55). -/
def autoOverlapW (memoryLimit dynamicMemory maxOverlap : Int) : Int :=
  if autoMaxLayers memoryLimit dynamicMemory * 3 < maxOverlap * 4 then
    Int.fdiv (autoMaxLayers memoryLimit dynamicMemory) 4
  else if autoMaxLayers memoryLimit dynamicMemory < maxOverlap * 2 then
    autoMaxLayers memoryLimit dynamicMemory - maxOverlap
  else maxOverlap

/-- Auto-window selection of `CPM2.__init__` (cpm2.py lines 44-58): computes
`OVERLAP_LAYERS` when unset and raises `ValueError("Memory is not enough")`
(= `INSUFFICIENT_MEMORY`) when the result is below 1. -/
def autoOverlapLayers (memoryLimit dynamicMemory maxOverlap : Int) :
    Except SpecError Int :=
  if autoOverlapW memoryLimit dynamicMemory maxOverlap < 1 then
    .error .INSUFFICIENT_MEMORY
  else .ok (autoOverlapW memoryLimit dynamicMemory maxOverlap)

/-- The `overlap_size` cascade of `T5.__init__` measured in units of the
per-layer size (the multiplier of `mx_size` in model.py lines 92-99), over
`Int` so it can be combined with the heuristic's byte estimates. -/
def overlapCostLayers (W M : Int) : Int :=
  if M ≤ W then M * 2
  else if M ≤ W * 2 then W * 2 + (M - W)
  else if M ≤ W * 3 then W * 3 + (M - W * 2)
  else W * 4

/-- A window `W` "fits" when, under the heuristic's hardcoded byte estimates
(`cpm2OtherBytesEst` for the permanent non-layer bytes, `cpm2LayerBytesEst`
per layer), permanent + overlap + dynamic memory is within the limit. -/
def cpm2Fits (memoryLimit dynamicMemory M W : Int) : Prop :=
  overlapCostLayers W M * cpm2LayerBytesEst + cpm2OtherBytesEst + dynamicMemory
    ≤ memoryLimit

instance (memoryLimit dynamicMemory M W : Int) :
    Decidable (cpm2Fits memoryLimit dynamicMemory M W) := by
  unfold cpm2Fits
  infer_instance

/-- The `"<span>"` sentinel marker (cpm2.py line 10), as a character list. -/
def spanToken : List Char := ['<', 's', 'p', 'a', 'n', '>']

/-- Positions of the non-overlapping occurrences of `pat` in `s`, scanning
left to right and resuming after each match: the auto-detection loop of
`pre_processing` (cpm2.py lines 74-82, `str.find` plus
`st = nw_pos + len(SPAN_TOKEN)`). -/
def findSpans (pat : List Char) (s : List Char) : List Nat :=
  match s with
  | [] => []
  | c :: rest =>
    if pat.isPrefixOf (c :: rest) then
      0 :: (findSpans pat (rest.drop (pat.length - 1))).map (· + pat.length)
    else
      (findSpans pat rest).map (· + 1)
termination_by s.length
decreasing_by
  · simp [List.length_drop]
    omega
  · simp

/-- Span validation of `pre_processing` (cpm2.py lines 74-89): auto-detect
positions when none are supplied, then raise `NO_SPANS` on zero positions,
`TOO_MANY_SPANS` above 16, and `INVALID_SPAN` at the first supplied position
that does not start a `"<span>"` marker.  (The subsequent tokenization and
encoding act on accepted inputs only.) -/
def preProcessSpans (input : List Char) (spansPosition : Option (List Nat)) :
    Except SpecError (List Nat) :=
  let sp := match spansPosition with
    | none => findSpans spanToken input
    | some l => l
  if sp.length = 0 then .error .NO_SPANS
  else if 16 < sp.length then .error .TOO_MANY_SPANS
  else
    match sp.find? (fun pos => ! spanToken.isPrefixOf (input.drop pos)) with
    | some pos => .error (.INVALID_SPAN pos)
    | none => .ok sp

/-- Modelled from the spec: `tokenizer.get_span` (the tokenizer module is not
part of the sources at hand) — the span sentinels are "a contiguous range of
190 span sentinels (indexed 0..189)", so sentinel `k` is id `base + k`. -/
def getSpan (base k : Nat) : Nat := base + k

/-- State of the `fill_blank` sampling loop (cpm2.py lines 155-167):
`blanks = blanksDone ++ [current]` with `current = blanks[-1]`, `nextSpan` is
`next_span`, and `consumed` counts sampled tokens (it also indexes the sample
oracle). -/
structure FillBlankState where
  blanksDone : List (List Nat)
  current : List Nat
  nextSpan : Nat
  consumed : Nat
deriving DecidableEq, Repr

/-- The `for _ in range(max_tokens)` loop of `fill_blank` (cpm2.py lines
158-167).  The model's logits and `sampler.sample` are abstracted into the
oracle `samples : Nat → Nat` giving the token sampled at each step.  A token
equal to `get_span(next_span)` increments `next_span` and either stops the
loop (all sentinels emitted) or opens a fresh blank; any other token is
appended to the current blank. -/
def fillBlankLoop (base numSpans : Nat) (samples : Nat → Nat) :
    Nat → FillBlankState → FillBlankState
  | 0, st => st
  | fuel + 1, st =>
    if samples st.consumed = getSpan base st.nextSpan then
      if numSpans < st.nextSpan + 1 then
        { st with nextSpan := st.nextSpan + 1, consumed := st.consumed + 1 }
      else
        fillBlankLoop base numSpans samples fuel
          { blanksDone := st.blanksDone ++ [st.current]
            current := []
            nextSpan := st.nextSpan + 1
            consumed := st.consumed + 1 }
    else
      fillBlankLoop base numSpans samples fuel
        { st with
          current := st.current ++ [samples st.consumed]
          consumed := st.consumed + 1 }

/-- Initial loop state: `blanks = [[]]`, `next_span = 1` (cpm2.py lines
155-156). -/
def fillBlankInit : FillBlankState :=
  { blanksDone := [], current := [], nextSpan := 1, consumed := 0 }

/-- The `blanks` list after the `fill_blank` loop. -/
def fillBlankBlanks (base numSpans : Nat) (samples : Nat → Nat)
    (maxTokens : Nat) : List (List Nat) :=
  let st := fillBlankLoop base numSpans samples maxTokens fillBlankInit
  st.blanksDone ++ [st.current]

/-- Result of `fill_blank` (cpm2.py lines 169-175): `zip(spans_position,
blanks)`, each record pairing a span position with the tokens generated for
that blank (`id_to_text` detokenization is external tokenizer code, so a
record carries the token ids). -/
def fillBlank (base : Nat) (spansPosition : List Nat) (samples : Nat → Nat)
    (maxTokens : Nat) : List (Nat × List Nat) :=
  List.zip spansPosition (fillBlankBlanks base spansPosition.length samples maxTokens)

/-- One element of the Python `stop_tokens` list in `generate`: the list
starts as `[tokenizer.encode(s) for s in stop_tokens]` — *lists* of ids — and
then `eod_id`, a plain id, is appended, so the list is heterogeneous. -/
inductive StopElem where
  | ids (l : List Nat)
  | tok (t : Nat)
deriving DecidableEq, Repr

/-- Stop-set construction of `generate` (cpm2.py lines 206-213): encode every
caller string (the encoded id-lists are taken as input, the tokenizer being
external), then append `eod_id` unless it is already a member — Python's
`eod_id in stop_tokens` compares the int against each encoded list. -/
def buildStopSet (stopTokens : Option (List (List Nat))) (eodId : Nat) :
    List StopElem :=
  let base : List StopElem := match stopTokens with
    | none => []
    | some ls => ls.map StopElem.ids
  if StopElem.tok eodId ∈ base then base else base ++ [StopElem.tok eodId]

/-- The `for _ in range(max_tokens)` loop of `generate` (cpm2.py lines
228-234): sample a token; if Python's `decoder_ipts in stop_tokens` holds
(the sampled id equals an *int* member of the stop list; an id never equals
an encoded id-*list*), stop with `stoped = True`, otherwise append the token
and continue; return `stoped = False` when the budget runs out. -/
def generateLoop (stopSet : List StopElem) (samples : Nat → Nat) :
    Nat → Nat → List Nat → List Nat × Bool
  | 0, _, acc => (acc, false)
  | fuel + 1, t, acc =>
    if StopElem.tok (samples t) ∈ stopSet then (acc, true)
    else generateLoop stopSet samples fuel (t + 1) (acc ++ [samples t])

/-- `generate` (cpm2.py lines 206-236), sampling abstracted into the oracle:
build the stop set, then run the loop; the returned token list stands for the
detokenized result text. -/
def generateRun (stopTokens : Option (List (List Nat))) (eodId : Nat)
    (samples : Nat → Nat) (maxTokens : Nat) : List Nat × Bool :=
  generateLoop (buildStopSet stopTokens eodId) samples maxTokens 0 []

/-- Input rewriting of `generate` (cpm2.py lines 215-219): one `"<span>"`
sentinel is appended to the input text and its position — the input length —
is passed as the sole span position (with `start_span_idx = 189`). -/
def generatePreprocInput (input : List Char) : List Char × List Nat :=
  (input ++ spanToken, [input.length])

/-- Constant sample oracle for concrete runs. -/
def sampleConst (k : Nat) : Nat → Nat := fun _ => k

/-- Concrete configuration with `MAX_DECODER_LENGTH = 2` for exercising
`decode_step`. -/
def cfgC1 : T5Config :=
  { dimModel := 4, numHeads := 2, dimKv := 3, vocabSize := 10,
    maxDecoderLength := 2, encoderOnly := false, memoryOverlap := false,
    overlapLayers := 0, memoryLimit := 100, dynamicMemory := 0 }

def shC1 : T5Shape := { encSizes := [1, 1], decSizes := [1, 1], otherBytes := 0 }

/-- Concrete initialized context whose `step_pos` already equals
`MAX_DECODER_LENGTH` (= 2), i.e. the decoder has been driven to the limit. -/
def ctxC1 : T5InferenceContext :=
  { hiddenStates := (1, 4, 3), inputLength := [3],
    encoderLayersKv := some [1, 2, 2, 2, 3, 3],
    decoderPositionBias := some [1, 2, 2, 2],
    pastKv := some [2, 2, 1, 2, 3, 2],
    encoderMask := some [1, 3],
    stepPos := some 2 }

/-- Concrete overlap configuration accepted by the planner. -/
def cfgC2 : T5Config :=
  { dimModel := 4, numHeads := 2, dimKv := 3, vocabSize := 10,
    maxDecoderLength := 8, encoderOnly := false, memoryOverlap := true,
    overlapLayers := 1, memoryLimit := 100, dynamicMemory := 3 }

def shC2 : T5Shape := { encSizes := [4, 4, 4], decSizes := [4], otherBytes := 2 }

def planC2 : MemoryPlan :=
  { parameterAllocSize := 10, overlapA := some 4, overlapB := some 4,
    variableAllocSize := 82, residentEncoderLayers := 1, residentDecoderLayers := 1 }

/-- Concrete overlap configuration with `W = 1`, `M = 3` (so `3W ≥ M`). -/
def cfgC3 : T5Config :=
  { dimModel := 4, numHeads := 2, dimKv := 3, vocabSize := 10,
    maxDecoderLength := 8, encoderOnly := false, memoryOverlap := true,
    overlapLayers := 1, memoryLimit := 1000, dynamicMemory := 0 }

def shC3 : T5Shape := { encSizes := [4, 4, 4], decSizes := [4], otherBytes := 0 }

def planC3 : MemoryPlan :=
  { parameterAllocSize := 8, overlapA := some 4, overlapB := some 4,
    variableAllocSize := 984, residentEncoderLayers := 1, residentDecoderLayers := 1 }

/-- Concrete overlap configuration with `W = max(Le, Ld)` (window covers every
layer). -/
def cfgC5 : T5Config :=
  { dimModel := 4, numHeads := 2, dimKv := 3, vocabSize := 10,
    maxDecoderLength := 8, encoderOnly := false, memoryOverlap := true,
    overlapLayers := 2, memoryLimit := 100, dynamicMemory := 0 }

def shC5 : T5Shape := { encSizes := [5, 5], decSizes := [5], otherBytes := 0 }

def planC5 : MemoryPlan :=
  { parameterAllocSize := 20, overlapA := none, overlapB := none,
    variableAllocSize := 80, residentEncoderLayers := 2, residentDecoderLayers := 1 }

/-- Concrete encoder-only configuration. -/
def cfgC9 : T5Config :=
  { dimModel := 4, numHeads := 2, dimKv := 3, vocabSize := 10,
    maxDecoderLength := 2, encoderOnly := true, memoryOverlap := false,
    overlapLayers := 0, memoryLimit := 100, dynamicMemory := 0 }

def shC9 : T5Shape := { encSizes := [1, 1], decSizes := [], otherBytes := 0 }

/-- Fresh context as produced by `encode`, decoder fields unset. -/
def ctxC9 : T5InferenceContext :=
  { hiddenStates := (1, 4, 2), inputLength := [2] }

/-- Concrete input text `"a<span>b"` for span validation. -/
def inputC8 : List Char := 'a' :: spanToken ++ ['b']

theorem overlapSize_eq_perm_add_ring (mx W M : Nat) (hWM : W ≤ M) :
    overlapSize mx W M = mx * W * 2 + ringBytes mx W M := by
  unfold overlapSize ringBytes
  split_ifs with h1 h2 h3
  · have hw : W = M := Nat.le_antisymm hWM h1
    subst hw
    ring
  · rfl
  · generalize (M - W * 2) * mx = a
    ring
  · ring

theorem ring_pools_sum (mx W M : Nat) :
    (Option.getD (if M ≤ W then none
      else if M ≤ W * 2 then none
      else if M ≤ W * 3 then some ((M - W * 2) * mx)
      else some (W * mx)) 0) +
    (Option.getD (if M ≤ W then none
      else if M ≤ W * 2 then some ((M - W) * mx)
      else if M ≤ W * 3 then some (W * mx)
      else some (W * mx)) 0) = ringBytes mx W M := by
  unfold ringBytes
  split_ifs <;> simp

/-- C2: every configuration the constructor accepts satisfies
permanent-resident bytes (parameter allocator) + overlap ring-buffer bytes +
dynamic reservation ≤ `MEMORY_LIMIT`, and any configuration whose such total
exceeds the limit is rejected with `INSUFFICIENT_MEMORY` — in both the
overlap and the non-overlap branch of `T5.__init__`. -/
theorem t5_memory_limit_invariant (cfg : T5Config) (sh : T5Shape) :
    (∀ p, buildPlan cfg sh = .ok p →
        p.parameterAllocSize + p.overlapA.getD 0 + p.overlapB.getD 0 +
          cfg.dynamicMemory ≤ cfg.memoryLimit) ∧
    (cfg.memoryOverlap = true →
        cfg.memoryLimit < sh.otherBytes +
          maxLayerSize sh *
            effOverlapLayers true cfg.overlapLayers (maxOverlapLayers sh) * 2 +
          ringBytes (maxLayerSize sh)
            (effOverlapLayers true cfg.overlapLayers (maxOverlapLayers sh))
            (maxOverlapLayers sh) +
          cfg.dynamicMemory →
        buildPlan cfg sh = .error .INSUFFICIENT_MEMORY) ∧
    (cfg.memoryOverlap = false →
        cfg.memoryLimit < nbytes sh + cfg.dynamicMemory →
        buildPlan cfg sh = .error .INSUFFICIENT_MEMORY) := by
  have hWM : effOverlapLayers true cfg.overlapLayers (maxOverlapLayers sh) ≤
      maxOverlapLayers sh := by
    simp [effOverlapLayers]
  refine ⟨?_, ?_, ?_⟩
  · intro p hp
    unfold buildPlan at hp
    by_cases hov : cfg.memoryOverlap = true
    · simp only [hov, if_true] at hp
      split at hp
      · exact absurd hp (by simp)
      · rename_i hfit
        injection hp with hp
        subst hp
        have hcheck : overlapSize (maxLayerSize sh)
            (effOverlapLayers true cfg.overlapLayers (maxOverlapLayers sh))
            (maxOverlapLayers sh) + sh.otherBytes + cfg.dynamicMemory ≤
            cfg.memoryLimit := Nat.le_of_not_lt hfit
        rw [overlapSize_eq_perm_add_ring _ _ _ hWM] at hcheck
        have hsum := ring_pools_sum (maxLayerSize sh)
          (effOverlapLayers true cfg.overlapLayers (maxOverlapLayers sh))
          (maxOverlapLayers sh)
        simp only
        linarith [hsum]
    · have hov' : cfg.memoryOverlap = false := by
        revert hov
        cases cfg.memoryOverlap <;> simp
      simp only [hov', Bool.false_eq_true, if_false] at hp
      split at hp
      · exact absurd hp (by simp)
      · rename_i hfit
        injection hp with hp
        subst hp
        simp only [Option.getD_none]
        have := Nat.le_of_not_lt hfit
        omega
  · intro hov hbig
    have hlt : cfg.memoryLimit < overlapSize (maxLayerSize sh)
        (effOverlapLayers true cfg.overlapLayers (maxOverlapLayers sh))
        (maxOverlapLayers sh) + sh.otherBytes + cfg.dynamicMemory := by
      rw [overlapSize_eq_perm_add_ring _ _ _ hWM]
      linarith
    unfold buildPlan
    simp only [hov, if_true]
    rw [if_pos hlt]
  · intro hov hbig
    unfold buildPlan
    simp only [hov, Bool.false_eq_true, if_false]
    rw [if_pos hbig]

theorem t5_memory_limit_invariant_witness :
    buildPlan cfgC2 shC2 = Except.ok planC2 ∧
    planC2.parameterAllocSize + planC2.overlapA.getD 0 + planC2.overlapB.getD 0 +
      cfgC2.dynamicMemory ≤ cfgC2.memoryLimit := by
  refine ⟨by decide, ?_⟩
  exact (t5_memory_limit_invariant cfgC2 shC2).1 planC2 (by decide)

/-- C3: with overlap enabled, the accepted plan's ring pools A and B are
sized exactly per the planner table as a function of the configured window
`W` and `M = max(Le, Ld)`: `W ≥ M` gives no pools; else `2W ≥ M` gives only
pool B of `(M − W)·s`; else `3W ≥ M` gives pool A of `(M − 2W)·s` and pool B
of `W·s`; otherwise both pools are `W·s`, where `s` is the maximum per-layer
byte size over all encoder and decoder layers. -/
theorem t5_ring_pool_sizes (cfg : T5Config) (sh : T5Shape) (p : MemoryPlan)
    (hov : cfg.memoryOverlap = true) (hok : buildPlan cfg sh = .ok p) :
    (maxOverlapLayers sh ≤ cfg.overlapLayers →
        p.overlapA = none ∧ p.overlapB = none) ∧
    (cfg.overlapLayers < maxOverlapLayers sh →
        maxOverlapLayers sh ≤ cfg.overlapLayers * 2 →
        p.overlapA = none ∧
        p.overlapB = some ((maxOverlapLayers sh - cfg.overlapLayers) * maxLayerSize sh)) ∧
    (cfg.overlapLayers < maxOverlapLayers sh →
        ¬ maxOverlapLayers sh ≤ cfg.overlapLayers * 2 →
        maxOverlapLayers sh ≤ cfg.overlapLayers * 3 →
        p.overlapA = some ((maxOverlapLayers sh - cfg.overlapLayers * 2) * maxLayerSize sh) ∧
        p.overlapB = some (cfg.overlapLayers * maxLayerSize sh)) ∧
    (¬ maxOverlapLayers sh ≤ cfg.overlapLayers * 3 →
        p.overlapA = some (cfg.overlapLayers * maxLayerSize sh) ∧
        p.overlapB = some (cfg.overlapLayers * maxLayerSize sh)) := by
  unfold buildPlan at hok
  simp only [hov, if_true] at hok
  split at hok
  · exact absurd hok (by simp)
  · injection hok with hok
    subst hok
    refine ⟨?_, ?_, ?_, ?_⟩
    · intro h1
      have hW : effOverlapLayers true cfg.overlapLayers (maxOverlapLayers sh) =
          maxOverlapLayers sh := by
        simp [effOverlapLayers, min_eq_right h1]
      simp [hW]
    · intro h1 h2
      have hW : effOverlapLayers true cfg.overlapLayers (maxOverlapLayers sh) =
          cfg.overlapLayers := by
        simp [effOverlapLayers, min_eq_left h1.le]
      simp only [hW]
      rw [if_neg (by omega), if_pos h2, if_neg (by omega), if_pos h2]
      exact ⟨rfl, rfl⟩
    · intro h1 h2 h3
      have hW : effOverlapLayers true cfg.overlapLayers (maxOverlapLayers sh) =
          cfg.overlapLayers := by
        simp [effOverlapLayers, min_eq_left h1.le]
      simp only [hW]
      rw [if_neg (by omega), if_neg h2, if_pos h3, if_neg (by omega), if_neg h2,
        if_pos h3]
      exact ⟨rfl, rfl⟩
    · intro h3
      have h1 : cfg.overlapLayers < maxOverlapLayers sh := by omega
      have hW : effOverlapLayers true cfg.overlapLayers (maxOverlapLayers sh) =
          cfg.overlapLayers := by
        simp [effOverlapLayers, min_eq_left h1.le]
      simp only [hW]
      rw [if_neg (by omega), if_neg (by omega), if_neg h3, if_neg (by omega),
        if_neg (by omega), if_neg h3]
      exact ⟨rfl, rfl⟩

theorem encodeLoaderAux_tail (n W : Nat) (hnW : n ≤ W) :
    ∀ k i status, n ≤ i + k → 1 ≤ i → encodeLoaderAux n W i status = ([], status) := by
  intro k
  induction k with
  | zero =>
    intro i status hk hi
    rw [encodeLoaderAux, dif_neg (by omega)]
  | succ k IH =>
    intro i status hk hi
    by_cases hin : i < n
    · rw [encodeLoaderAux, dif_pos hin]
      have hmod : i % W = i := Nat.mod_eq_of_lt (by omega)
      have hne : ¬ (i % W = 0) := by rw [hmod]; omega
      rw [if_neg hne]
      simp [IH (i + 1) status (by omega) (by omega)]
    · rw [encodeLoaderAux, dif_neg hin]

theorem encodeLoader_ge (n W : Nat) (hnW : n ≤ W) (status : OverlapStatus) :
    encodeLoader n W status
      = (if 0 < n then [LoaderEvent.barrierWait] else [], status) := by
  unfold encodeLoader
  by_cases hn : 0 < n
  · rw [encodeLoaderAux, dif_pos hn, if_pos (Nat.zero_mod W),
      if_neg (by omega : ¬ 0 + W < n)]
    simp [encodeLoaderAux_tail n W hnW n 1 status (by omega) (by omega), hn]
  · rw [encodeLoaderAux, dif_neg (by omega)]
    simp [hn]

theorem decodeLoaderAux_tail (n W : Nat) (hnW : n ≤ W) :
    ∀ k i status, n ≤ i + k → 1 ≤ i → decodeLoaderAux n W i status = ([], status) := by
  intro k
  induction k with
  | zero =>
    intro i status hk hi
    rw [decodeLoaderAux, dif_neg (by omega)]
  | succ k IH =>
    intro i status hk hi
    by_cases hin : i < n
    · rw [decodeLoaderAux, dif_pos hin]
      have hmod : i % W = i := Nat.mod_eq_of_lt (by omega)
      have hne : ¬ (i % W = 0) := by rw [hmod]; omega
      rw [if_neg hne]
      simp [IH (i + 1) status (by omega) (by omega)]
    · rw [decodeLoaderAux, dif_neg hin]

theorem decodeLoader_ge (n W : Nat) (hnW : n ≤ W) (status : OverlapStatus) :
    decodeLoader n W status
      = (if 0 < n then [LoaderEvent.barrierWait] else [], status) := by
  unfold decodeLoader
  by_cases hn : 0 < n
  · rw [decodeLoaderAux, dif_pos hn, if_pos (Nat.zero_mod W),
      if_neg (by omega : ¬ 0 + W < n)]
    simp [decodeLoaderAux_tail n W hnW n 1 status (by omega) (by omega), hn]
  · rw [decodeLoaderAux, dif_neg (by omega)]
    simp [hn]

/-- C5: for `W ≥ max(Le, Ld)` an overlap-enabled run behaves like an
overlap-disabled run: the effective window (hence both calc traces and both
loader runs) coincides with the non-overlap one, the loader threads emit only
barrier waits — never a ring-pool reset or a windowed upload — during the
encoder pass or a decode step, and every encoder and decoder layer is
permanently device-resident after construction. -/
theorem t5_full_window_equiv (cfg : T5Config) (sh : T5Shape)
    (status : OverlapStatus) (hW : maxOverlapLayers sh ≤ cfg.overlapLayers) :
    effOverlapLayers true cfg.overlapLayers (maxOverlapLayers sh)
      = effOverlapLayers false cfg.overlapLayers (maxOverlapLayers sh) ∧
    encodeLoader sh.encSizes.length
        (effOverlapLayers true cfg.overlapLayers (maxOverlapLayers sh)) status
      = encodeLoader sh.encSizes.length
        (effOverlapLayers false cfg.overlapLayers (maxOverlapLayers sh)) status ∧
    decodeLoader sh.decSizes.length
        (effOverlapLayers true cfg.overlapLayers (maxOverlapLayers sh)) status
      = decodeLoader sh.decSizes.length
        (effOverlapLayers false cfg.overlapLayers (maxOverlapLayers sh)) status ∧
    (∀ e ∈ (encodeLoader sh.encSizes.length
        (effOverlapLayers true cfg.overlapLayers (maxOverlapLayers sh)) status).1,
        e = LoaderEvent.barrierWait) ∧
    (∀ e ∈ (decodeLoader sh.decSizes.length
        (effOverlapLayers true cfg.overlapLayers (maxOverlapLayers sh)) status).1,
        e = LoaderEvent.barrierWait) ∧
    encodeCalc sh.encSizes.length
        (effOverlapLayers true cfg.overlapLayers (maxOverlapLayers sh))
      = encodeCalc sh.encSizes.length
        (effOverlapLayers false cfg.overlapLayers (maxOverlapLayers sh)) ∧
    decodeCalc sh.decSizes.length
        (effOverlapLayers true cfg.overlapLayers (maxOverlapLayers sh))
      = decodeCalc sh.decSizes.length
        (effOverlapLayers false cfg.overlapLayers (maxOverlapLayers sh)) ∧
    (∀ p, buildPlan cfg sh = .ok p →
        p.residentEncoderLayers = sh.encSizes.length ∧
        p.residentDecoderLayers = sh.decSizes.length) := by
  have heff : effOverlapLayers true cfg.overlapLayers (maxOverlapLayers sh)
      = maxOverlapLayers sh := by
    simp [effOverlapLayers, min_eq_right hW]
  have heff' : effOverlapLayers false cfg.overlapLayers (maxOverlapLayers sh)
      = maxOverlapLayers sh := rfl
  have hencM : sh.encSizes.length ≤ maxOverlapLayers sh := le_max_left _ _
  have hdecM : sh.decSizes.length ≤ maxOverlapLayers sh := le_max_right _ _
  refine ⟨by rw [heff, heff'], by rw [heff, heff'], by rw [heff, heff'],
    ?_, ?_, by rw [heff, heff'], by rw [heff, heff'], ?_⟩
  · intro e he
    rw [heff, encodeLoader_ge _ _ hencM] at he
    by_cases h0 : 0 < sh.encSizes.length
    · simp [h0] at he
      exact he
    · simp [h0] at he
  · intro e he
    rw [heff, decodeLoader_ge _ _ hdecM] at he
    by_cases h0 : 0 < sh.decSizes.length
    · simp [h0] at he
      exact he
    · simp [h0] at he
  · intro p hp
    unfold buildPlan at hp
    by_cases hov : cfg.memoryOverlap = true
    · simp only [hov, if_true] at hp
      split at hp
      · exact absurd hp (by simp)
      · injection hp with hp
        subst hp
        simp only
        rw [heff]
        exact ⟨min_eq_right hencM, min_eq_right hdecM⟩
    · have hov' : cfg.memoryOverlap = false := by
        revert hov
        cases cfg.memoryOverlap <;> simp
      simp only [hov', Bool.false_eq_true, if_false] at hp
      split at hp
      · exact absurd hp (by simp)
      · injection hp with hp
        subst hp
        exact ⟨rfl, rfl⟩

theorem t5_full_window_equiv_witness :
    effOverlapLayers true cfgC5.overlapLayers (maxOverlapLayers shC5)
      = effOverlapLayers false cfgC5.overlapLayers (maxOverlapLayers shC5) ∧
    encodeLoader shC5.encSizes.length
        (effOverlapLayers true cfgC5.overlapLayers (maxOverlapLayers shC5))
        ((none, none) : OverlapStatus)
      = encodeLoader shC5.encSizes.length
        (effOverlapLayers false cfgC5.overlapLayers (maxOverlapLayers shC5))
        ((none, none) : OverlapStatus) ∧
    planC5.residentEncoderLayers = shC5.encSizes.length ∧
    planC5.residentDecoderLayers = shC5.decSizes.length := by
  have h := t5_full_window_equiv cfgC5 shC5 ((none, none) : OverlapStatus) (by decide)
  have hres := h.2.2.2.2.2.2.2 planC5 (by decide)
  exact ⟨h.1, h.2.1, hres.1, hres.2⟩

theorem t5_ring_pool_sizes_witness :
    buildPlan cfgC3 shC3 = Except.ok planC3 ∧
    planC3.overlapA = some 4 ∧ planC3.overlapB = some 4 := by
  have h := t5_ring_pool_sizes cfgC3 shC3 planC3 rfl (by decide)
  have h3 := h.2.2.1 (by decide) (by decide) (by decide)
  exact ⟨by decide, by simpa using h3.1, by simpa using h3.2⟩

/-- C1 counterexample: a concrete call of `decode_step` on a context whose
`step_pos` already equals `MAX_DECODER_LENGTH` (= 2) does not fail with
`DECODE_OVERFLOW` — it succeeds, increments `step_pos` to 3 and returns
logits, refuting the claim that such a call fails instead of proceeding. -/
theorem decode_step_overflow_counterexample :
    ctxC1.stepPos = some cfgC1.maxDecoderLength ∧
    decodeStep cfgC1 shC1 ctxC1 ≠ Except.error SpecError.DECODE_OVERFLOW ∧
    decodeStep cfgC1 shC1 ctxC1
      = Except.ok ({ ctxC1 with stepPos := some 3 }, [1, 10], decodeCalc 2 2) := by
  refine ⟨rfl, by decide, by decide⟩

/-- C1 (amended): `decode_step` performs no bounds check on `step_pos`
against `MAX_DECODER_LENGTH`: every call on a context whose decoder fields
are set — in particular one with `step_pos ≥ MAX_DECODER_LENGTH` —
unconditionally increments `step_pos` by one and returns logits; no
`DECODE_OVERFLOW` failure path exists in `decode_step`. -/
theorem decode_step_unconditional (cfg : T5Config) (sh : T5Shape)
    (ctx : T5InferenceContext) (pk ek db em : List Nat) (sp : Nat)
    (h1 : ctx.pastKv = some pk) (h2 : ctx.encoderLayersKv = some ek)
    (h3 : ctx.decoderPositionBias = some db) (h4 : ctx.encoderMask = some em)
    (h5 : ctx.stepPos = some sp) :
    decodeStep cfg sh ctx
      = Except.ok ({ ctx with stepPos := some (sp + 1) },
          [ctx.hiddenStates.1, cfg.vocabSize],
          decodeCalc sh.decSizes.length
            (effOverlapLayers cfg.memoryOverlap cfg.overlapLayers
              (maxOverlapLayers sh))) := by
  unfold decodeStep
  rw [h1, h2, h3, h4, h5]

theorem decode_step_unconditional_witness :
    decodeStep cfgC1 shC1 ctxC1
      = Except.ok ({ ctxC1 with stepPos := some 3 }, [1, 10], decodeCalc 2 2) := by
  have h := decode_step_unconditional cfgC1 shC1 ctxC1
    [2, 2, 1, 2, 3, 2] [1, 2, 2, 2, 3, 3] [1, 2, 2, 2] [1, 3] 2
    rfl rfl rfl rfl rfl
  exact h

/-- C9: on an encoder-only model, `_init_decoder_context` fails with
`ENCODER_ONLY` for every context, and the failure happens before any of the
decoder-context fields are assigned — the context comes back exactly as it
went in. -/
theorem init_decoder_context_encoder_only (cfg : T5Config) (sh : T5Shape)
    (ctx : T5InferenceContext) (h : cfg.encoderOnly = true) :
    initDecoderContext cfg sh ctx = (Except.error SpecError.ENCODER_ONLY, ctx) := by
  unfold initDecoderContext
  rw [h]
  simp

theorem init_decoder_context_encoder_only_witness :
    initDecoderContext cfgC9 shC9 ctxC9
      = (Except.error SpecError.ENCODER_ONLY, ctxC9) :=
  init_decoder_context_encoder_only cfgC9 shC9 ctxC9 rfl

/-- C4: for `M = max(Le, Ld) ≥ 1`, the auto-window policy of
`CPM2.__init__` returns the *largest* window `W ≤ M` that fits — permanent +
overlap + dynamic memory within the limit, under the heuristic's hardcoded
per-layer and non-layer byte estimates — preferring a smaller `W` only when a
larger one does not fit, and it fails with `INSUFFICIENT_MEMORY` exactly when
even `W = 1` does not fit. -/
theorem cpm2_auto_overlap_policy (memoryLimit dynamicMemory M : Int)
    (hM : 1 ≤ M) :
    (∀ w, autoOverlapLayers memoryLimit dynamicMemory M = .ok w →
        1 ≤ w ∧ w ≤ M ∧ cpm2Fits memoryLimit dynamicMemory M w ∧
        ∀ w', w < w' → w' ≤ M → ¬ cpm2Fits memoryLimit dynamicMemory M w') ∧
    (autoOverlapLayers memoryLimit dynamicMemory M = .error .INSUFFICIENT_MEMORY ↔
        ¬ cpm2Fits memoryLimit dynamicMemory M 1) := by
  have hA : autoMaxLayers memoryLimit dynamicMemory
      = (memoryLimit - dynamicMemory - 1235640320) / 226615296 := by
    unfold autoMaxLayers cpm2OtherBytesEst cpm2LayerBytesEst
    exact Int.fdiv_eq_ediv _ (by norm_num)
  have hw0 : autoOverlapW memoryLimit dynamicMemory M
      = (if ((memoryLimit - dynamicMemory - 1235640320) / 226615296) * 3 < M * 4 then
          ((memoryLimit - dynamicMemory - 1235640320) / 226615296) / 4
        else if ((memoryLimit - dynamicMemory - 1235640320) / 226615296) < M * 2 then
          ((memoryLimit - dynamicMemory - 1235640320) / 226615296) - M
        else M) := by
    unfold autoOverlapW
    rw [hA, Int.fdiv_eq_ediv _ (by norm_num)]
  constructor
  · intro w hw
    unfold autoOverlapLayers at hw
    rw [hw0] at hw
    set q := (memoryLimit - dynamicMemory - 1235640320) / 226615296 with hq
    by_cases hc1 : q * 3 < M * 4
    · rw [if_pos hc1] at hw
      by_cases hc2 : q / 4 < 1
      · rw [if_pos hc2] at hw
        exact absurd hw (by simp)
      · rw [if_neg hc2] at hw
        injection hw with hw
        subst hw
        refine ⟨by omega, by omega, ?_, ?_⟩
        · unfold cpm2Fits overlapCostLayers cpm2LayerBytesEst cpm2OtherBytesEst
          split_ifs <;> omega
        · intro w' hw1 hw2
          unfold cpm2Fits overlapCostLayers cpm2LayerBytesEst cpm2OtherBytesEst
          split_ifs <;> omega
    · rw [if_neg hc1] at hw
      by_cases hc2 : q < M * 2
      · rw [if_pos hc2] at hw
        by_cases hc3 : q - M < 1
        · rw [if_pos hc3] at hw
          exact absurd hw (by simp)
        · rw [if_neg hc3] at hw
          injection hw with hw
          subst hw
          refine ⟨by omega, by omega, ?_, ?_⟩
          · unfold cpm2Fits overlapCostLayers cpm2LayerBytesEst cpm2OtherBytesEst
            split_ifs <;> omega
          · intro w' hw1 hw2
            unfold cpm2Fits overlapCostLayers cpm2LayerBytesEst cpm2OtherBytesEst
            split_ifs <;> omega
      · rw [if_neg hc2, if_neg (by omega : ¬ M < 1)] at hw
        injection hw with hw
        subst hw
        refine ⟨hM, le_refl M, ?_, ?_⟩
        · unfold cpm2Fits overlapCostLayers cpm2LayerBytesEst cpm2OtherBytesEst
          split_ifs <;> omega
        · intro w' hw1 hw2
          unfold cpm2Fits overlapCostLayers cpm2LayerBytesEst cpm2OtherBytesEst
          split_ifs <;> omega
  · constructor
    · intro herr
      unfold autoOverlapLayers at herr
      rw [hw0] at herr
      set q := (memoryLimit - dynamicMemory - 1235640320) / 226615296 with hq
      by_cases hc1 : q * 3 < M * 4
      · rw [if_pos hc1] at herr
        by_cases hc2 : q / 4 < 1
        · unfold cpm2Fits overlapCostLayers cpm2LayerBytesEst cpm2OtherBytesEst
          split_ifs <;> omega
        · rw [if_neg hc2] at herr
          exact absurd herr (by simp)
      · rw [if_neg hc1] at herr
        by_cases hc2 : q < M * 2
        · rw [if_pos hc2] at herr
          by_cases hc3 : q - M < 1
          · exact absurd hc3 (by omega)
          · rw [if_neg hc3] at herr
            exact absurd herr (by simp)
        · rw [if_neg hc2, if_neg (by omega : ¬ M < 1)] at herr
          exact absurd herr (by simp)
    · intro hnf
      unfold autoOverlapLayers
      rw [hw0]
      set q := (memoryLimit - dynamicMemory - 1235640320) / 226615296 with hq
      unfold cpm2Fits overlapCostLayers cpm2LayerBytesEst cpm2OtherBytesEst at hnf
      by_cases hc1 : q * 3 < M * 4
      · rw [if_pos hc1]
        split_ifs at hnf <;> rw [if_pos (by omega)]
      · rw [if_neg hc1]
        by_cases hc2 : q < M * 2
        · rw [if_pos hc2]
          exfalso
          split_ifs at hnf <;> omega
        · rw [if_neg hc2]
          exfalso
          split_ifs at hnf <;> omega

theorem cpm2_auto_overlap_policy_witness :
    autoOverlapLayers (1235640320 + 226615296 * 100) 0 24 = Except.ok 24 ∧
    cpm2Fits (1235640320 + 226615296 * 100) 0 24 24 := by
  have h := cpm2_auto_overlap_policy (1235640320 + 226615296 * 100) 0 24 (by norm_num)
  have hok : autoOverlapLayers (1235640320 + 226615296 * 100) 0 24
      = Except.ok 24 := by decide
  exact ⟨hok, (h.1 24 hok).2.2.1⟩

theorem findSpans_valid_aux (pat : List Char) :
    ∀ n (s : List Char), s.length ≤ n → ∀ p ∈ findSpans pat s,
      pat.isPrefixOf (s.drop p) = true := by
  intro n
  induction n with
  | zero =>
    intro s hs p hp
    have hnil : s = [] := List.eq_nil_of_length_eq_zero (by omega)
    subst hnil
    simp [findSpans] at hp
  | succ n IH =>
    intro s hs p hp
    match s with
    | [] => simp [findSpans] at hp
    | c :: rest =>
      rw [findSpans] at hp
      by_cases hpre : pat.isPrefixOf (c :: rest)
      · rw [if_pos hpre] at hp
        rcases List.mem_cons.mp hp with rfl | hp'
        · simpa using hpre
        · rcases List.mem_map.mp hp' with ⟨q, hq, rfl⟩
          by_cases hpat : pat = []
          · subst hpat
            simp
          · have hlen : 1 ≤ pat.length := by
              cases pat
              · exact absurd rfl hpat
              · simp
            have hq' := IH (rest.drop (pat.length - 1))
              (by simp only [List.length_drop]; simp at hs; omega) q hq
            rw [List.drop_drop] at hq'
            have hsplit : (c :: rest).drop (q + pat.length)
                = rest.drop (pat.length - 1 + q) := by
              have harith : q + pat.length = (pat.length - 1 + q) + 1 := by omega
              rw [harith, List.drop_succ_cons]
            rw [hsplit]
            exact hq'
      · rw [if_neg hpre] at hp
        rcases List.mem_map.mp hp with ⟨q, hq, rfl⟩
        have hq' := IH rest (by simp at hs; omega) q hq
        rw [List.drop_succ_cons]
        exact hq'

theorem findSpans_valid (pat s : List Char) (p : Nat) (hp : p ∈ findSpans pat s) :
    pat.isPrefixOf (s.drop p) = true :=
  findSpans_valid_aux pat s.length s le_rfl p hp

theorem findSpans_nil_aux (pat : List Char) :
    ∀ n (s : List Char), s.length ≤ n →
      (∀ i : Nat, ¬ pat.isPrefixOf (s.drop i) = true) → findSpans pat s = [] := by
  intro n
  induction n with
  | zero =>
    intro s hs _
    have hnil : s = [] := List.eq_nil_of_length_eq_zero (by omega)
    subst hnil
    simp [findSpans]
  | succ n IH =>
    intro s hs hocc
    match s with
    | [] => simp [findSpans]
    | c :: rest =>
      rw [findSpans]
      rw [if_neg (by simpa using hocc 0)]
      have hr : findSpans pat rest = [] := by
        refine IH rest (by simp at hs; omega) ?_
        intro i
        have hi := hocc (i + 1)
        rwa [List.drop_succ_cons] at hi
      rw [hr]
      simp

theorem findSpans_nil (pat s : List Char)
    (hocc : ∀ i : Nat, ¬ pat.isPrefixOf (s.drop i) = true) :
    findSpans pat s = [] :=
  findSpans_nil_aux pat s.length s le_rfl hocc

/-- C8: the blank-fill span validation fails with `NO_SPANS` on an input
containing zero span markers (and on an explicit empty position list), with
`TOO_MANY_SPANS` on more than 16 positions, and with `INVALID_SPAN` at the
first caller-supplied position not starting a well-formed `"<span>"` marker;
1 to 16 well-formed markers — caller-supplied or auto-detected — are
accepted. -/
theorem cpm2_span_validation (input : List Char) :
    (∀ sp : List Nat, sp.length = 0 →
        preProcessSpans input (some sp) = .error .NO_SPANS) ∧
    ((∀ i : Nat, ¬ spanToken.isPrefixOf (input.drop i) = true) →
        preProcessSpans input none = .error .NO_SPANS) ∧
    (∀ sp : List Nat, 16 < sp.length →
        preProcessSpans input (some sp) = .error .TOO_MANY_SPANS) ∧
    (∀ sp : List Nat, 1 ≤ sp.length → sp.length ≤ 16 →
        ¬ (∀ p ∈ sp, spanToken.isPrefixOf (input.drop p) = true) →
        ∃ p, p ∈ sp ∧ ¬ spanToken.isPrefixOf (input.drop p) = true ∧
          preProcessSpans input (some sp) = .error (.INVALID_SPAN p)) ∧
    (∀ sp : List Nat, 1 ≤ sp.length → sp.length ≤ 16 →
        (∀ p ∈ sp, spanToken.isPrefixOf (input.drop p) = true) →
        preProcessSpans input (some sp) = .ok sp) ∧
    (1 ≤ (findSpans spanToken input).length →
        (findSpans spanToken input).length ≤ 16 →
        preProcessSpans input none = .ok (findSpans spanToken input)) := by
  refine ⟨?_, ?_, ?_, ?_, ?_, ?_⟩
  · intro sp h
    simp [preProcessSpans, h]
  · intro hocc
    have h0 : findSpans spanToken input = [] := findSpans_nil spanToken input hocc
    simp [preProcessSpans, h0]
  · intro sp h
    simp only [preProcessSpans]
    rw [if_neg (by omega), if_pos h]
  · intro sp h1 h16 hbad
    push_neg at hbad
    have hfind : sp.find? (fun pos => ! spanToken.isPrefixOf (input.drop pos)) ≠ none := by
      intro hnone
      rw [List.find?_eq_none] at hnone
      rcases hbad with ⟨p, hp, hnp⟩
      exact hnp (by simpa using hnone p hp)
    rcases Option.ne_none_iff_exists'.mp hfind with ⟨p, hp⟩
    refine ⟨p, List.mem_of_find?_eq_some hp, ?_, ?_⟩
    · have hps := List.find?_some hp
      simp at hps
      intro hcontra
      rw [hcontra] at hps
      exact Bool.noConfusion hps
    simp only [preProcessSpans]
    rw [if_neg (by omega), if_neg (by omega), hp]
  · intro sp h1 h16 hall
    have hfind : sp.find? (fun pos => ! spanToken.isPrefixOf (input.drop pos)) = none := by
      rw [List.find?_eq_none]
      intro x hx
      simp [hall x hx]
    simp only [preProcessSpans]
    rw [if_neg (by omega), if_neg (by omega), hfind]
  · intro h1 h16
    have hfind : (findSpans spanToken input).find?
        (fun pos => ! spanToken.isPrefixOf (input.drop pos)) = none := by
      rw [List.find?_eq_none]
      intro x hx
      simp [findSpans_valid spanToken input x hx]
    simp only [preProcessSpans]
    rw [if_neg (by omega), if_neg (by omega), hfind]

theorem cpm2_span_validation_witness :
    preProcessSpans inputC8 (some [1]) = Except.ok [1] :=
  (cpm2_span_validation inputC8).2.2.2.2.1 [1] (by decide) (by decide) (by decide)

theorem fillBlankLoop_budget (base S : Nat) (samples : Nat → Nat) :
    ∀ fuel st, st.nextSpan ≤ S →
      (fillBlankLoop base S samples fuel st).consumed ≤ st.consumed + fuel ∧
      ((fillBlankLoop base S samples fuel st).consumed < st.consumed + fuel →
        (fillBlankLoop base S samples fuel st).nextSpan = S + 1) := by
  intro fuel
  induction fuel with
  | zero =>
    intro st h
    constructor
    · simp [fillBlankLoop]
    · intro h2
      simp [fillBlankLoop] at h2
  | succ fuel IH =>
    intro st h
    rw [fillBlankLoop]
    by_cases hm : samples st.consumed = getSpan base st.nextSpan
    · rw [if_pos hm]
      by_cases hb : S < st.nextSpan + 1
      · rw [if_pos hb]
        constructor
        · simp
        · intro h2
          simp
          omega
      · rw [if_neg hb]
        have hIH := IH
          { blanksDone := st.blanksDone ++ [st.current]
            current := []
            nextSpan := st.nextSpan + 1
            consumed := st.consumed + 1 } (by simp; omega)
        constructor
        · have h1 := hIH.1
          simp at h1 ⊢
          omega
        · intro h2
          apply hIH.2
          simp at h2 ⊢
          omega
    · rw [if_neg hm]
      have hIH := IH
        { st with
          current := st.current ++ [samples st.consumed]
          consumed := st.consumed + 1 } (by simpa using h)
      constructor
      · have h1 := hIH.1
        simp at h1 ⊢
        omega
      · intro h2
        apply hIH.2
        simp at h2 ⊢
        omega

theorem fillBlankLoop_blanks (base S : Nat) (samples : Nat → Nat) :
    ∀ fuel st, st.blanksDone.length + 1 = st.nextSpan → st.nextSpan ≤ S →
      (fillBlankLoop base S samples fuel st).nextSpan ≤ S →
      (fillBlankLoop base S samples fuel st).blanksDone.length + 1
        = (fillBlankLoop base S samples fuel st).nextSpan := by
  intro fuel
  induction fuel with
  | zero =>
    intro st hinv hle hout
    simpa [fillBlankLoop] using hinv
  | succ fuel IH =>
    intro st hinv hle hout
    rw [fillBlankLoop] at hout ⊢
    by_cases hm : samples st.consumed = getSpan base st.nextSpan
    · rw [if_pos hm] at hout ⊢
      by_cases hb : S < st.nextSpan + 1
      · rw [if_pos hb] at hout ⊢
        simp at hout
        omega
      · rw [if_neg hb] at hout ⊢
        exact IH
          { blanksDone := st.blanksDone ++ [st.current]
            current := []
            nextSpan := st.nextSpan + 1
            consumed := st.consumed + 1 } (by simp; omega) (by simp; omega) hout
    · rw [if_neg hm] at hout ⊢
      exact IH
        { st with
          current := st.current ++ [samples st.consumed]
          consumed := st.consumed + 1 } (by simpa using hinv) (by simpa using hle) hout

/-- C6: the `fill_blank` driver (after the start-of-decoder step) samples in
a loop of at most `max_tokens` iterations; a sampled token equal to
`span_{next}` closes the current blank and — unless it was the last sentinel,
which ends generation — opens the next; any other token extends the current
blank; if the loop ends before the budget is exhausted then every span
sentinel has been emitted (`next_span = numSpans + 1`); and the result pairs
the span positions with the blanks via `zip`. -/
theorem cpm2_fill_blank_driver (base maxTokens : Nat) (pos : List Nat)
    (samples : Nat → Nat) :
    (fillBlank base pos samples maxTokens
      = List.zip pos (fillBlankBlanks base pos.length samples maxTokens)) ∧
    (∀ numSpans : Nat, 1 ≤ numSpans →
      (fillBlankLoop base numSpans samples maxTokens fillBlankInit).consumed
          ≤ maxTokens ∧
      ((fillBlankLoop base numSpans samples maxTokens fillBlankInit).consumed
          < maxTokens →
        (fillBlankLoop base numSpans samples maxTokens fillBlankInit).nextSpan
          = numSpans + 1)) ∧
    (∀ numSpans fuel : Nat, ∀ st : FillBlankState,
      samples st.consumed = getSpan base st.nextSpan →
      numSpans < st.nextSpan + 1 →
      fillBlankLoop base numSpans samples (fuel + 1) st
        = { st with nextSpan := st.nextSpan + 1, consumed := st.consumed + 1 }) ∧
    (∀ numSpans fuel : Nat, ∀ st : FillBlankState,
      samples st.consumed = getSpan base st.nextSpan →
      ¬ numSpans < st.nextSpan + 1 →
      fillBlankLoop base numSpans samples (fuel + 1) st
        = fillBlankLoop base numSpans samples fuel
          { blanksDone := st.blanksDone ++ [st.current]
            current := []
            nextSpan := st.nextSpan + 1
            consumed := st.consumed + 1 }) ∧
    (∀ numSpans fuel : Nat, ∀ st : FillBlankState,
      samples st.consumed ≠ getSpan base st.nextSpan →
      fillBlankLoop base numSpans samples (fuel + 1) st
        = fillBlankLoop base numSpans samples fuel
          { st with
            current := st.current ++ [samples st.consumed]
            consumed := st.consumed + 1 }) := by
  refine ⟨rfl, ?_, ?_, ?_, ?_⟩
  · intro numSpans h1
    have hb := fillBlankLoop_budget base numSpans samples maxTokens fillBlankInit
      (by simpa [fillBlankInit] using h1)
    simpa [fillBlankInit] using hb
  · intro numSpans fuel st hm hb
    rw [fillBlankLoop, if_pos hm, if_pos hb]
  · intro numSpans fuel st hm hb
    rw [fillBlankLoop, if_pos hm, if_neg hb]
  · intro numSpans fuel st hm
    rw [fillBlankLoop, if_neg hm]

theorem cpm2_fill_blank_driver_witness :
    (fillBlankLoop 100 1 (sampleConst 101) 2 fillBlankInit).consumed ≤ 2 ∧
    fillBlankLoop 100 1 (sampleConst 101) (0 + 1) fillBlankInit
      = { fillBlankInit with nextSpan := 2, consumed := 1 } ∧
    fillBlank 100 [3] (sampleConst 101) 2
      = List.zip [3] (fillBlankBlanks 100 1 (sampleConst 101) 2) := by
  have h := cpm2_fill_blank_driver 100 2 [3] (sampleConst 101)
  refine ⟨(h.2.1 1 (by decide)).1, ?_, h.1⟩
  exact h.2.2.1 1 0 fillBlankInit (by decide) (by decide)

/-- C10: `fill_blank` returns at most as many records as there are span
positions; a sampled sentinel other than the single expected `span_{next}`
(out of order or repeated) does not close the blank — it is appended to the
current blank's tokens like any ordinary token; and when the loop ends with
`next_span ≤ numSpans` (the budget was exhausted before all sentinels
appeared), the result has exactly `next_span` records, so the trailing span
positions receive no entry at all. -/
theorem cpm2_fill_blank_truncation (base maxTokens : Nat) (pos : List Nat)
    (samples : Nat → Nat) :
    ((fillBlank base pos samples maxTokens).length ≤ pos.length) ∧
    (∀ numSpans fuel : Nat, ∀ st : FillBlankState, ∀ j : Nat,
      j ≠ st.nextSpan →
      samples st.consumed = getSpan base j →
      fillBlankLoop base numSpans samples (fuel + 1) st
        = fillBlankLoop base numSpans samples fuel
          { st with
            current := st.current ++ [samples st.consumed]
            consumed := st.consumed + 1 }) ∧
    (1 ≤ pos.length →
      (fillBlankLoop base pos.length samples maxTokens fillBlankInit).nextSpan
          ≤ pos.length →
      (fillBlank base pos samples maxTokens).length
        = (fillBlankLoop base pos.length samples maxTokens fillBlankInit).nextSpan) := by
  refine ⟨?_, ?_, ?_⟩
  · unfold fillBlank
    simp [List.length_zip]
  · intro numSpans fuel st j hj hs
    have hne : samples st.consumed ≠ getSpan base st.nextSpan := by
      rw [hs]
      unfold getSpan
      omega
    rw [fillBlankLoop, if_neg hne]
  · intro h1 hout
    have hlen := fillBlankLoop_blanks base pos.length samples maxTokens
      fillBlankInit (by simp [fillBlankInit]) (by simpa [fillBlankInit] using h1) hout
    unfold fillBlank fillBlankBlanks
    rw [List.length_zip]
    simp only [List.length_append, List.length_cons, List.length_nil]
    omega

theorem cpm2_fill_blank_truncation_witness :
    (fillBlank 100 [3, 9] (sampleConst 107) 1).length ≤ 2 ∧
    fillBlankLoop 100 2 (sampleConst 107) (0 + 1) fillBlankInit
      = fillBlankLoop 100 2 (sampleConst 107) 0
        { fillBlankInit with current := [107], consumed := 1 } ∧
    (fillBlank 100 [3, 9] (sampleConst 107) 1).length = 1 := by
  have h := cpm2_fill_blank_truncation 100 1 [3, 9] (sampleConst 107)
  refine ⟨h.1, ?_, ?_⟩
  · have hstep := h.2.1 2 0 fillBlankInit 7 (by decide) (by decide)
    simpa using hstep
  · have hlast := h.2.2 (by decide) (by decide)
    simpa using hlast

/-- C7 evidence: in `generate` the caller's stop tokens are *encoded lists*
of ids inside the stop set, while the sampled token is a single id, so a
sampled token can never match a caller-supplied stop entry — here token 42 is
sampled with `stop_tokens` encoding to `[[42]]`, yet generation runs to the
budget and returns `stoped = False`, contradicting the claim (and the
function's docstring) that a listed stop token stops generation; only the
always-appended `eod` id (7) stops the loop. -/
theorem cpm2_generate_stop_evidence :
    buildStopSet (some [[42]]) 7 = [StopElem.ids [42], StopElem.tok 7] ∧
    generateRun (some [[42]]) 7 (sampleConst 42) 2 = ([42, 42], false) ∧
    generateRun (some [[42]]) 7 (sampleConst 7) 2 = ([], true) := by
  refine ⟨by decide, by decide, by decide⟩

end BMInf
